import Mathlib

/-
Verification of the alarm-analysis pipeline (src/alarm-analysis.py) against its
specification.  The pipeline reshapes a wide per-room table of daily alarm
counts into a long table (`load_and_process_data`), computes three aggregate
views (`analyze_alarm_patterns`), renders charts (`create_visualizations`) and
reduces the aggregates to an insights record (`generate_insights`).

Modelling conventions:
* Alarm counts are embedded as rationals (`ℚ`); pandas integer/float sums,
  means and variances are exact rational arithmetic here.
* `pd.to_datetime(_, format='%d')` is embedded as an `Option`-valued
  conversion applied elementwise to the melted `Date` column; the elementwise
  map fails (`Except.error`) exactly when some element fails, as `to_datetime`
  does.  `to_datetime` converts the missing-value sentinel strings ("NaT",
  "nat", "NAT", "nan", "NaN", "NAN") and the empty string to `NaT` without
  raising, even with an explicit format and `errors='raise'`; `NaT` is encoded
  here as day 0, genuinely parsed days lying in 1..31.  The aggregate views
  embed `groupby` on long tables of §3's data model, whose `Date` column holds
  calendar days; a long table containing `NaT` (day 0) lies outside that data
  model (in pandas a `NaT` key would additionally be dropped from the
  `groupby('Date')` result).
* pandas `groupby` emits one group per distinct key, keys sorted ascending
  (`sort=True` default); we model this with `List.insertionSort` over the
  deduplicated key list.
* The sample standard deviation (`ddof=1`) of a single observation is NaN in
  pandas, and float division yields NaN for 0/0, +∞ for positive/0.  The
  coefficient of variation `std / mean` is therefore embedded as a value of
  the inductive type `CV` that records whether the float result is NaN, +∞ or
  the finite real √var / mean (represented by the pair (var, mean), mean ≠ 0);
  the threshold comparison `cv > 1` is embedded accordingly (NaN > 1 is False
  in pandas/NumPy, +∞ > 1 is True, and for mean ≠ 0, √var/mean > 1 ↔
  0 < mean ∧ mean² < var).
-/

namespace AlarmAnalysis

/-- The numeric value of a decimal digit character, `none` for a non-digit. -/
def digitVal (c : Char) : Option Nat :=
  if c.toNat < 48 ∨ 57 < c.toNat then none else some (c.toNat - 48)

/-- Embeds `pd.to_datetime(token, format='%d')` on one token: `%d` matches a
one- or two-digit day-of-month, which must lie in 1..31; anything else raises
(here: `none`). -/
def parseDay (s : String) : Option Nat :=
  match s.toList with
  | [c] =>
      match digitVal c with
      | none => none
      | some d => if 1 ≤ d ∧ d ≤ 31 then some d else none
  | [c₁, c₂] =>
      match digitVal c₁, digitVal c₂ with
      | some d₁, some d₂ =>
          if 1 ≤ 10 * d₁ + d₂ ∧ 10 * d₁ + d₂ ≤ 31 then some (10 * d₁ + d₂) else none
      | _, _ => none
  | _ => none

/-- The missing-value sentinel strings of pandas (`nat_strings`) together
with the empty string: `pd.to_datetime` converts such a token to `NaT`
without raising, even with an explicit format and `errors='raise'`. -/
def natSentinel (s : String) : Bool :=
  s == "" || s == "NaT" || s == "nat" || s == "NAT" ||
    s == "nan" || s == "NaN" || s == "NAN"

/-- Embeds `pd.to_datetime(token, format='%d')` on one token in full: a
missing-value sentinel becomes `NaT` (encoded as day 0; genuinely parsed
days lie in 1..31), any other token must parse as a `%d` day-of-month, and
otherwise the conversion raises (`none`). -/
def toDatetime (s : String) : Option Nat :=
  if natSentinel s then some 0 else parseDay s

/-- The converted day of a token, defaulting to 0 (so 0 for `NaT` sentinels
and for unconvertible tokens alike); used only to state the spec's invariant
that all `Count_*` columns carry the same day encoding (so distinct columns
convert to distinct day values). -/
def dayValue (s : String) : Nat := (toDatetime s).getD 0

/-- One row of the wide input table: identity columns `Room_Codes`, `Rooms`,
and the cells of the `Count_<day>` columns in column order. -/
structure WideRow where
  roomCode : String
  roomName : String
  counts : List ℚ
deriving Repr, DecidableEq

/-- The wide input table: the day tokens of its `Count_<day>` columns (in
column order; column `j` is named `Count_` ++ `dayTokens[j]`) and its rows. -/
structure WideTable where
  dayTokens : List String
  rows : List WideRow
deriving Repr, DecidableEq

/-- One row of the melted (long) table before date parsing: columns
`Room_Codes`, `Rooms`, `Date` (still the raw day token) and `Alarms`. -/
structure MeltRow where
  roomCode : String
  roomName : String
  dateStr : String
  alarms : ℚ
deriving Repr, DecidableEq

/-- One row of the long observation table after date conversion: `Date` is
the parsed day-of-month (pandas stores 1900-01-d; ordering is the day
ordering), with 0 encoding `NaT` (from a missing-value sentinel token). -/
structure LongRow where
  roomCode : String
  roomName : String
  date : Nat
  alarms : ℚ
deriving Repr, DecidableEq, Inhabited

/-- Embeds `pd.melt(df, id_vars=['Room_Codes','Rooms'], value_vars=Count_*)`:
for each value column (in column order) emit one row per input row, carrying
the identity columns, the column's day token as `Date` and the cell as
`Alarms`. -/
def meltCols (rows : List WideRow) (j : Nat) : List String → List MeltRow
  | [] => []
  | tok :: rest =>
      rows.map (fun r => ⟨r.roomCode, r.roomName, tok, r.counts.getD j 0⟩)
        ++ meltCols rows (j + 1) rest

/-- The melted table of a wide table (the index `j` tracks each value
column's position so each row's cell for that column can be read off). -/
def melt (t : WideTable) : List MeltRow :=
  meltCols t.rows 0 t.dayTokens

/-- Embeds `pd.to_datetime(df_melted['Date'], format='%d')`: convert every
row's day token; sentinel tokens become `NaT` (day 0) without raising, and
the whole conversion raises iff some non-sentinel element fails to parse (an
empty column trivially succeeds). -/
def parseDates : List MeltRow → Except String (List LongRow)
  | [] => .ok []
  | m :: ms =>
      match toDatetime m.dateStr with
      | none => .error m.dateStr
      | some d =>
          match parseDates ms with
          | .error e => .error e
          | .ok rs => .ok (⟨m.roomCode, m.roomName, d, m.alarms⟩ :: rs)

/-- Embeds `load_and_process_data`: build the DataFrame, melt it, strip the
`Count_` prefix (our day tokens are already stripped) and parse the `Date`
column; a parse failure propagates as an uncaught error. -/
def load_and_process_data (t : WideTable) : Except String (List LongRow) :=
  parseDates (melt t)

/-- Sum of the `Alarms` column of a long table. -/
def sumAlarms (df : List LongRow) : ℚ :=
  (df.map (·.alarms)).sum

/-- Embeds the group keys of `df.groupby('Date')`: the distinct dates, sorted
ascending (pandas groupby default `sort=True`). -/
def dateKeys (df : List LongRow) : List Nat :=
  List.insertionSort (· ≤ ·) (df.map (·.date)).dedup

/-- Embeds the group keys of `df.groupby('Room_Codes')`: the distinct room
codes, sorted ascending. -/
def roomKeys (df : List LongRow) : List String :=
  List.insertionSort (· ≤ ·) (df.map (·.roomCode)).dedup

/-- Embeds `df.groupby('Date')['Alarms'].sum().reset_index()`: one row per
distinct date (ascending), carrying the sum of `Alarms` over that date's
rows. -/
def daily_totals (df : List LongRow) : List (Nat × ℚ) :=
  (dateKeys df).map (fun d => (d, sumAlarms (df.filter (fun r => r.date = d))))

/-- One row of the room-totals view: the aggregates computed by
`df.groupby('Room_Codes')['Alarms'].agg([...])`. -/
structure RoomTotal where
  room : String
  total_alarms : ℚ
  avg_daily_alarms : ℚ
  max_daily_alarms : ℚ
  days_with_alarms : Nat
deriving Repr, DecidableEq, Inhabited

/-- The rows of a room's group: `df[df.Room_Codes == c]`. -/
def groupRows (df : List LongRow) (c : String) : List LongRow :=
  df.filter (fun r => r.roomCode = c)

/-- Maximum of a nonempty list of rationals (groupby groups are nonempty;
the `[]` case is never reached on a group). -/
def maxQ : List ℚ → ℚ
  | [] => 0
  | x :: xs => xs.foldl max x

/-- The aggregate row of one room group: sum, mean, max, and count of days
with `Alarms > 0`. -/
def roomTotalOf (df : List LongRow) (c : String) : RoomTotal :=
  let g := groupRows df c
  { room := c
    total_alarms := sumAlarms g
    avg_daily_alarms := sumAlarms g / (g.length : ℚ)
    max_daily_alarms := maxQ (g.map (·.alarms))
    days_with_alarms := (g.filter (fun r => 0 < r.alarms)).length }

/-- The descending-by-total ordering used by
`.sort_values('total_alarms', ascending=False)`. -/
def rtDesc (a b : RoomTotal) : Prop :=
  b.total_alarms ≤ a.total_alarms

instance : DecidableRel rtDesc := fun a b =>
  inferInstanceAs (Decidable (b.total_alarms ≤ a.total_alarms))

/-- Embeds the room-totals view: group by `Room_Codes` (keys ascending),
aggregate, then sort descending by `total_alarms`. -/
def room_totals (df : List LongRow) : List RoomTotal :=
  List.insertionSort rtDesc ((roomKeys df).map (roomTotalOf df))

/-- The float value of the coefficient of variation `std / mean` of a group,
as classified by IEEE arithmetic: `nan` (std is NaN because the group has a
single observation with `ddof=1`, or 0/0), `inf` (+∞, positive std over mean
+0), or the finite real √var / mean, represented by the pair (var, mean) with
mean ≠ 0. -/
inductive CV where
  | nan : CV
  | inf : CV
  | fin : ℚ → ℚ → CV
deriving Repr, DecidableEq

/-- Whether a `CV` value is a finite number (neither NaN nor infinite). -/
def CV.isFinite : CV → Bool
  | .fin _ _ => true
  | _ => false

/-- Whether a `CV` value is NaN (pandas "non-numeric" division result). -/
def CV.isNaN : CV → Bool
  | .nan => true
  | _ => false

/-- Embeds the NumPy comparison `cv > 1`: False for NaN, True for +∞, and for
the finite value √var / mean (mean ≠ 0) it holds iff 0 < mean and mean² < var
(for mean < 0 the quotient is negative; for mean > 0, √var > mean ↔
var > mean²). -/
def CV.gtOne : CV → Bool
  | .nan => false
  | .inf => true
  | .fin v m => decide (0 < m ∧ m ^ 2 < v)

/-- One row of the room-variability view computed by
`df.groupby('Room_Codes')['Alarms'].agg(['mean','std'])` plus the derived
`cv` column: we record the group size `n` and the sample variance `var`
(std = √var, NaN when n < 2 because `ddof=1`). -/
structure RoomStat where
  room : String
  n : Nat
  mean : ℚ
  var : ℚ
deriving Repr, DecidableEq, Inhabited

/-- The `cv = std / mean` cell of a variability row, classified as in `CV`:
std is NaN when n < 2; otherwise std = √var ≥ 0 and division by a zero mean
gives NaN (0/0) or +∞ (positive/0). -/
def RoomStat.cv (s : RoomStat) : CV :=
  if s.n < 2 then .nan
  else if s.mean = 0 then (if s.var = 0 then .nan else .inf)
  else .fin s.var s.mean

/-- The variability row of one room group: mean and sample variance
(denominator n − 1; the value stored for n ≤ 1 is irrelevant since std is NaN
there). -/
def roomStatOf (df : List LongRow) (c : String) : RoomStat :=
  let g := groupRows df c
  let n := g.length
  let m := sumAlarms g / (n : ℚ)
  { room := c
    n := n
    mean := m
    var := if n ≤ 1 then 0
           else ((g.map (fun r => (r.alarms - m) ^ 2)).sum) / ((n : ℚ) - 1) }

/-- Embeds the room-variability view `room_stats`: group by `Room_Codes`
(keys ascending), compute mean, std and cv. -/
def room_stats (df : List LongRow) : List RoomStat :=
  (roomKeys df).map (roomStatOf df)

/-- Embeds the row selection of the heat-map panel of `create_visualizations`:
`df.pivot(index='Room_Codes', columns='Date', values='Alarms')` produces a
matrix whose row index is the sorted distinct `Room_Codes`, and `.head(20)`
keeps its first twenty rows — i.e. the first twenty room codes in ascending
order. -/
def heatmap_rooms (df : List LongRow) : List String :=
  (List.insertionSort (· ≤ ·) (df.map (·.roomCode)).dedup).take 20

/-- The twenty highest-total rooms by the room-totals ranking (what the
heat-map panel's title claims to show). -/
def top20_rooms (df : List LongRow) : List String :=
  ((room_totals df).take 20).map (·.room)

/-- The insights record produced by `generate_insights`. -/
structure Insights where
  total_alarms : ℚ
  avg_daily_alarms : ℚ
  max_daily_alarms : ℚ
  top_rooms : List String
  rooms_with_high_variance : List String
deriving Repr, DecidableEq

/-- Embeds `generate_insights`: total over room totals, mean and max of the
daily totals, `head(5)` of the room ranking, and the rooms passing the
`cv > 1` filter.  (On an empty daily-totals view pandas' mean is NaN and
`int(nan)` raises; the values returned here for that case are irrelevant —
every claim about these fields assumes a nonempty table.) -/
def generate_insights (daily : List (Nat × ℚ)) (roomT : List RoomTotal)
    (roomS : List RoomStat) : Insights :=
  { total_alarms := (roomT.map (·.total_alarms)).sum
    avg_daily_alarms := (daily.map (·.2)).sum / (daily.length : ℚ)
    max_daily_alarms := maxQ (daily.map (·.2))
    top_rooms := (roomT.take 5).map (·.room)
    rooms_with_high_variance :=
      (roomS.filter (fun s => s.cv.gtOne)).map (·.room) }

instance : IsTotal RoomTotal rtDesc :=
  ⟨fun a b => (le_total a.total_alarms b.total_alarms).symm⟩

instance : IsTrans RoomTotal rtDesc :=
  ⟨fun _ _ _ hab hbc => le_trans hbc hab⟩

/-! Helper lemmas about the melted table. -/

theorem meltCols_length (rows : List WideRow) :
    ∀ (toks : List String) (j : Nat),
      (meltCols rows j toks).length = toks.length * rows.length := by
  intro toks
  induction toks with
  | nil => intro j; simp [meltCols]
  | cons tok rest ih =>
      intro j
      simp only [meltCols, List.length_append, List.length_map, ih (j + 1),
        List.length_cons, Nat.succ_mul]
      omega

theorem mem_meltCols {rows : List WideRow} {m : MeltRow} :
    ∀ {toks : List String} {j : Nat}, m ∈ meltCols rows j toks →
      m.dateStr ∈ toks ∧ m.roomCode ∈ rows.map (·.roomCode) := by
  intro toks
  induction toks with
  | nil => intro j h; cases h
  | cons tok rest ih =>
      intro j h
      rw [meltCols, List.mem_append] at h
      rcases h with h | h
      · rcases List.mem_map.1 h with ⟨r, hr, rfl⟩
        exact ⟨List.mem_cons_self _ _, List.mem_map_of_mem _ hr⟩
      · obtain ⟨h1, h2⟩ := ih h
        exact ⟨List.mem_cons_of_mem _ h1, h2⟩

theorem mem_map_roomCode_meltCols {rows : List WideRow} {x : String}
    {toks : List String} {j : Nat}
    (hx : x ∈ (meltCols rows j toks).map (·.roomCode)) :
    x ∈ rows.map (·.roomCode) := by
  rcases List.mem_map.1 hx with ⟨m, hm, rfl⟩
  exact (mem_meltCols hm).2

theorem mem_map_roomCode_meltCols_of {rows : List WideRow} {x : String}
    (hx : x ∈ rows.map (·.roomCode)) {toks : List String} (htoks : toks ≠ [])
    (j : Nat) : x ∈ (meltCols rows j toks).map (·.roomCode) := by
  match toks with
  | tok :: rest =>
      rcases List.mem_map.1 hx with ⟨r, hr, rfl⟩
      rw [meltCols, List.map_append, List.mem_append, List.map_map]
      exact Or.inl (List.mem_map.2 ⟨r, hr, rfl⟩)

theorem pairs_nodup (rows : List WideRow)
    (hrow : (rows.map (·.roomCode)).Nodup) :
    ∀ (toks : List String) (j : Nat), (toks.map dayValue).Nodup →
      ((meltCols rows j toks).map
        (fun m => (m.roomCode, dayValue m.dateStr))).Nodup := by
  intro toks
  induction toks with
  | nil => intro j _; exact List.nodup_nil
  | cons tok rest ih =>
      intro j hnd
      rw [List.map_cons, List.nodup_cons] at hnd
      rw [meltCols, List.map_append]
      refine List.Nodup.append ?_ (ih (j + 1) hnd.2) ?_
      · rw [List.map_map]
        have hmm : rows.map
              ((fun m : MeltRow => (m.roomCode, dayValue m.dateStr)) ∘
                (fun r => ⟨r.roomCode, r.roomName, tok, r.counts.getD j 0⟩))
            = (rows.map (·.roomCode)).map (fun c => (c, dayValue tok)) := by
          rw [List.map_map]; rfl
        rw [hmm]
        exact hrow.map (fun a b h => congrArg Prod.fst h)
      · intro x hx hx'
        rcases List.mem_map.1 hx with ⟨m, hm, rfl⟩
        rcases List.mem_map.1 hm with ⟨r, _, rfl⟩
        rcases List.mem_map.1 hx' with ⟨m', hm', hpair⟩
        have hd : dayValue m'.dateStr ∈ rest.map dayValue :=
          List.mem_map_of_mem _ (mem_meltCols hm').1
        have : dayValue m'.dateStr = dayValue tok := congrArg Prod.snd hpair
        exact hnd.1 (this ▸ hd)

/-! Helper lemmas about date parsing of the melted table. -/

theorem parseDates_ok :
    ∀ {ms : List MeltRow} {df : List LongRow}, parseDates ms = .ok df →
      List.Forall₂ (fun (m : MeltRow) (r : LongRow) =>
        toDatetime m.dateStr = some r.date ∧ r.roomCode = m.roomCode ∧
          r.alarms = m.alarms) ms df := by
  intro ms
  induction ms with
  | nil =>
      intro df h
      simp only [parseDates, Except.ok.injEq] at h
      rw [← h]
      exact List.Forall₂.nil
  | cons m ms ih =>
      intro df h
      simp only [parseDates] at h
      cases hp : toDatetime m.dateStr with
      | none => rw [hp] at h; exact Except.noConfusion h
      | some d =>
          rw [hp] at h
          cases hrec : parseDates ms with
          | error e => rw [hrec] at h; exact Except.noConfusion h
          | ok rs =>
              rw [hrec] at h
              simp only [Except.ok.injEq] at h
              rw [← h]
              exact List.Forall₂.cons ⟨hp, rfl, rfl⟩ (ih hrec)

theorem forall₂_map_eq {γ : Type} {R : MeltRow → LongRow → Prop}
    {f : LongRow → γ} {g : MeltRow → γ} (hfg : ∀ m r, R m r → f r = g m) :
    ∀ {ms : List MeltRow} {df : List LongRow}, List.Forall₂ R ms df →
      df.map f = ms.map g := by
  intro ms df h
  induction h with
  | nil => rfl
  | cons hr _ ih => simp only [List.map_cons, ih, hfg _ _ hr]

/-! Helper lemmas about groupby aggregation: summing a quantity over the
groups of a partition equals summing it over the whole table. -/

theorem sum_map_add {α : Type} (l : List α) (f g : α → ℚ) :
    (l.map fun a => f a + g a).sum = (l.map f).sum + (l.map g).sum := by
  induction l with
  | nil => simp
  | cons a l ih => simp only [List.map_cons, List.sum_cons, ih]; ring

theorem sum_map_ite_single {κ : Type} [DecidableEq κ] :
    ∀ {keys : List κ}, keys.Nodup → ∀ {a : κ}, a ∈ keys → ∀ (v : ℚ),
      (keys.map fun k => if a = k then v else 0).sum = v := by
  intro keys
  induction keys with
  | nil => intro _ a ha; cases ha
  | cons k ks ih =>
      intro nd a ha v
      rcases List.mem_cons.1 ha with rfl | ha
      · rw [List.map_cons, List.sum_cons, if_pos rfl]
        have ha' : a ∉ ks := (List.nodup_cons.1 nd).1
        have hz : (ks.map fun k' => if a = k' then v else 0).sum = 0 := by
          apply List.sum_eq_zero
          intro x hx
          rcases List.mem_map.1 hx with ⟨k', hk', rfl⟩
          exact if_neg (fun (e : a = k') => ha' (e ▸ hk'))
        rw [hz, add_zero]
      · have hk : a ≠ k := fun e => (List.nodup_cons.1 nd).1 (e ▸ ha)
        simp only [List.map_cons, List.sum_cons, if_neg hk, zero_add]
        exact ih (List.nodup_cons.1 nd).2 ha v

theorem sum_groups {α κ : Type} [DecidableEq κ] (key : α → κ) (val : α → ℚ) :
    ∀ (l : List α) {keys : List κ}, keys.Nodup → (∀ x ∈ l, key x ∈ keys) →
      (keys.map fun k => ((l.filter fun x => key x = k).map val).sum).sum
        = (l.map val).sum := by
  intro l
  induction l with
  | nil =>
      intro keys _ _
      simp
  | cons x xs ih =>
      intro keys nd hcov
      have hx := hcov x (List.mem_cons_self _ _)
      have hxs : ∀ y ∈ xs, key y ∈ keys :=
        fun y hy => hcov y (List.mem_cons_of_mem _ hy)
      have hsplit : ∀ k : κ, (((x :: xs).filter fun y => key y = k).map val).sum
          = (if key x = k then val x else 0)
            + ((xs.filter fun y => key y = k).map val).sum := by
        intro k
        by_cases h : key x = k
        · rw [List.filter_cons_of_pos (by simpa using h), if_pos h,
            List.map_cons, List.sum_cons]
        · rw [List.filter_cons_of_neg (by simpa using h), if_neg h, zero_add]
      calc (keys.map fun k =>
              (((x :: xs).filter fun y => key y = k).map val).sum).sum
          = (keys.map fun k => (if key x = k then val x else 0)
              + ((xs.filter fun y => key y = k).map val).sum).sum := by
            rw [List.map_congr_left (fun k _ => hsplit k)]
        _ = (keys.map fun k => if key x = k then val x else 0).sum
            + (keys.map fun k =>
                ((xs.filter fun y => key y = k).map val).sum).sum :=
            sum_map_add _ _ _
        _ = val x + (xs.map val).sum := by
            rw [sum_map_ite_single nd hx, ih nd hxs]
        _ = ((x :: xs).map val).sum := by
            rw [List.map_cons, List.sum_cons]

/-! Helper lemmas about the group-key lists (the distinct sorted keys that
pandas `groupby` produces). -/

theorem dateKeys_nodup (df : List LongRow) : (dateKeys df).Nodup :=
  (List.perm_insertionSort _ _).nodup_iff.2 (List.nodup_dedup _)

theorem roomKeys_nodup (df : List LongRow) : (roomKeys df).Nodup :=
  (List.perm_insertionSort _ _).nodup_iff.2 (List.nodup_dedup _)

theorem mem_dateKeys {df : List LongRow} {d : Nat} :
    d ∈ dateKeys df ↔ d ∈ df.map (·.date) := by
  rw [dateKeys, List.mem_insertionSort, List.mem_dedup]

theorem mem_roomKeys {df : List LongRow} {c : String} :
    c ∈ roomKeys df ↔ c ∈ df.map (·.roomCode) := by
  rw [roomKeys, List.mem_insertionSort, List.mem_dedup]

theorem sum_daily_totals (df : List LongRow) :
    ((daily_totals df).map (·.2)).sum = sumAlarms df := by
  rw [daily_totals, List.map_map]
  exact sum_groups (·.date) (·.alarms) df (dateKeys_nodup df)
    (fun r hr => mem_dateKeys.2 (List.mem_map_of_mem _ hr))

theorem sum_room_totals (df : List LongRow) :
    ((room_totals df).map (·.total_alarms)).sum = sumAlarms df := by
  have hperm : List.Perm (room_totals df) ((roomKeys df).map (roomTotalOf df)) :=
    List.perm_insertionSort _ _
  have h2 := (hperm.map (fun x : RoomTotal => x.total_alarms)).sum_eq
  rw [h2, List.map_map]
  exact sum_groups (·.roomCode) (·.alarms) df (roomKeys_nodup df)
    (fun r hr => mem_roomKeys.2 (List.mem_map_of_mem _ hr))

/-! Transfer lemmas from the parsed long table back to the melted table. -/

theorem load_ok_length {t : WideTable} {df : List LongRow}
    (hload : load_and_process_data t = .ok df) :
    df.length = (melt t).length :=
  (parseDates_ok hload).length_eq.symm

theorem load_ok_map_pair {t : WideTable} {df : List LongRow}
    (hload : load_and_process_data t = .ok df) :
    df.map (fun r => (r.roomCode, r.date))
      = (melt t).map (fun m => (m.roomCode, dayValue m.dateStr)) := by
  refine forall₂_map_eq ?_ (parseDates_ok hload)
  rintro m r ⟨hd, hc, _⟩
  simp [dayValue, hd, hc]

theorem load_ok_map_roomCode {t : WideTable} {df : List LongRow}
    (hload : load_and_process_data t = .ok df) :
    df.map (·.roomCode) = (melt t).map (·.roomCode) :=
  forall₂_map_eq (fun _ _ h => h.2.1) (parseDates_ok hload)

theorem roomKeys_length {t : WideTable} {df : List LongRow}
    (hload : load_and_process_data t = .ok df)
    (hrooms : (t.rows.map (·.roomCode)).Nodup) (hD : t.dayTokens ≠ []) :
    (roomKeys df).length = t.rows.length := by
  have hmm : ∀ x, x ∈ (df.map (·.roomCode)).dedup ↔ x ∈ t.rows.map (·.roomCode) := by
    intro x
    rw [List.mem_dedup, load_ok_map_roomCode hload]
    exact ⟨fun h => mem_map_roomCode_meltCols h,
      fun h => mem_map_roomCode_meltCols_of h hD 0⟩
  have hperm : List.Perm ((df.map (·.roomCode)).dedup) (t.rows.map (·.roomCode)) :=
    (List.perm_ext_iff_of_nodup (List.nodup_dedup _) hrooms).2 hmm
  rw [roomKeys, List.length_insertionSort, hperm.length_eq, List.length_map]

/-! Concrete tables used as witnesses: `exW1` is the spec §8 example shape
(two rooms, two day columns), `exDf1` its long table; `exDf2` is a one-room
table with all-zero counts (spec §8's undefined-cv example). -/

instance exceptDecEq {ε α : Type} [DecidableEq ε] [DecidableEq α] :
    DecidableEq (Except ε α)
  | .error e, .error f =>
      if h : e = f then .isTrue (h ▸ rfl)
      else .isFalse (fun c => by cases c; exact h rfl)
  | .error _, .ok _ => .isFalse (fun c => Except.noConfusion c)
  | .ok _, .error _ => .isFalse (fun c => Except.noConfusion c)
  | .ok a, .ok b =>
      if h : a = b then .isTrue (h ▸ rfl)
      else .isFalse (fun c => by cases c; exact h rfl)

def exW1 : WideTable :=
  ⟨["01", "02"], [⟨"A", "Alpha", [1, 2]⟩, ⟨"B", "Beta", [3, 4]⟩]⟩

def exDf1 : List LongRow :=
  [⟨"A", "Alpha", 1, 1⟩, ⟨"B", "Beta", 1, 3⟩,
   ⟨"A", "Alpha", 2, 2⟩, ⟨"B", "Beta", 2, 4⟩]

def exDf2 : List LongRow :=
  [⟨"A", "Alpha", 1, 0⟩, ⟨"A", "Alpha", 2, 0⟩]

/-- C1: for every wide input table with R rooms and D `Count_<day>` columns
(room codes unique and all day columns carrying distinct parsed days, §3's
invariants), the long table produced by the reshaper `load_and_process_data`
has exactly R×D rows, and no two rows share the same (Room_Codes, Date)
pair. -/
theorem C1_long_table_shape (t : WideTable) (df : List LongRow)
    (hload : load_and_process_data t = .ok df)
    (hrooms : (t.rows.map (·.roomCode)).Nodup)
    (hdays : (t.dayTokens.map dayValue).Nodup) :
    df.length = t.rows.length * t.dayTokens.length ∧
    (df.map (fun r => (r.roomCode, r.date))).Nodup := by
  constructor
  · rw [load_ok_length hload]
    show (meltCols t.rows 0 t.dayTokens).length = _
    rw [meltCols_length]
    exact Nat.mul_comm _ _
  · rw [load_ok_map_pair hload]
    exact pairs_nodup t.rows hrooms t.dayTokens 0 hdays

/-- Witness for C1 at the concrete 2-room × 2-day table. -/
theorem C1_witness :
    exDf1.length = exW1.rows.length * exW1.dayTokens.length ∧
    (exDf1.map (fun r => (r.roomCode, r.date))).Nodup :=
  C1_long_table_shape exW1 exDf1 (by with_unfolding_all decide)
    (by decide) (by decide)

/-- C2: the three aggregations of `analyze_alarm_patterns` agree: the sum of
`Alarms` over the long table equals the sum of `total_alarms` over the
room-totals view and the sum of `Alarms` over the daily-totals view. -/
theorem C2_aggregations_agree (df : List LongRow) :
    sumAlarms df = ((room_totals df).map (·.total_alarms)).sum ∧
    sumAlarms df = ((daily_totals df).map (·.2)).sum :=
  ⟨(sum_room_totals df).symm, (sum_daily_totals df).symm⟩

/-- C3: for an input with R rooms (≥ 1 day column, unique room codes), the
insights record's `total_alarms` is the full sum of `Alarms` over the long
table, and `top_rooms` has length min(5, R) and equals the first min(5, R)
room identifiers of the descending-sorted room-totals view. -/
theorem C3_insights (t : WideTable) (df : List LongRow)
    (hload : load_and_process_data t = .ok df)
    (hrooms : (t.rows.map (·.roomCode)).Nodup)
    (hD : t.dayTokens ≠ []) :
    (generate_insights (daily_totals df) (room_totals df)
      (room_stats df)).total_alarms = sumAlarms df ∧
    (generate_insights (daily_totals df) (room_totals df)
      (room_stats df)).top_rooms.length = min 5 t.rows.length ∧
    (generate_insights (daily_totals df) (room_totals df)
      (room_stats df)).top_rooms
        = ((room_totals df).take (min 5 t.rows.length)).map (·.room) := by
  have hlen : (room_totals df).length = t.rows.length := by
    rw [room_totals, List.length_insertionSort, List.length_map]
    exact roomKeys_length hload hrooms hD
  refine ⟨sum_room_totals df, ?_, ?_⟩
  · show (((room_totals df).take 5).map (·.room)).length = _
    rw [List.length_map, List.length_take, hlen]
  · show ((room_totals df).take 5).map (·.room) = _
    congr 1
    apply List.take_eq_take.2
    rw [hlen]
    omega

/-- Witness for C3 at the concrete 2-room × 2-day table. -/
theorem C3_witness :
    (generate_insights (daily_totals exDf1) (room_totals exDf1)
      (room_stats exDf1)).total_alarms = sumAlarms exDf1 ∧
    (generate_insights (daily_totals exDf1) (room_totals exDf1)
      (room_stats exDf1)).top_rooms.length = min 5 exW1.rows.length ∧
    (generate_insights (daily_totals exDf1) (room_totals exDf1)
      (room_stats exDf1)).top_rooms
        = ((room_totals exDf1).take (min 5 exW1.rows.length)).map (·.room) :=
  C3_insights exW1 exDf1 (by with_unfolding_all decide) (by decide) (by decide)

/-- C4 (amended): for every room in the room-variability view, whenever the
room's mean alarms is zero its coefficient of variation is never a finite
number; and for rooms with at least two daily observations the cv is
non-numeric (NaN or infinite) exactly when the mean is zero.  (As originally
stated the "iff" fails: with a single day column pandas' sample std
(`ddof=1`) is NaN, so cv is NaN even for a nonzero mean — see the
counterexample.) -/
theorem C4_cv_mean_zero (df : List LongRow) (s : RoomStat)
    (_hs : s ∈ room_stats df) :
    (s.mean = 0 → s.cv.isFinite = false) ∧
    (2 ≤ s.n → (s.cv.isFinite = false ↔ s.mean = 0)) := by
  constructor
  · intro hm
    by_cases h2 : s.n < 2
    · simp [RoomStat.cv, h2, CV.isFinite]
    · by_cases hv : s.var = 0 <;>
        simp [RoomStat.cv, h2, hm, hv, CV.isFinite]
  · intro hn
    have h2 : ¬ s.n < 2 := by omega
    by_cases hm : s.mean = 0
    · by_cases hv : s.var = 0 <;>
        simp [RoomStat.cv, h2, hm, hv, CV.isFinite]
    · simp [RoomStat.cv, h2, hm, CV.isFinite]

/-- C4 counterexample: on the one-room, one-day table with count 5 the
room's mean is 5 ≠ 0 yet its cv is non-numeric (std of a single observation
is NaN under `ddof=1`), refuting "cv is non-numeric iff the mean is zero"
as stated. -/
theorem C4_counterexample :
    ¬ (∀ s ∈ room_stats [(⟨"A", "Alpha", 1, 5⟩ : LongRow)],
        (s.cv.isFinite = false ↔ s.mean = 0)) := by
  with_unfolding_all decide

/-- Witness for C4 at the all-zero room of `exDf2` (mean 0, two days). -/
theorem C4_witness :
    ((⟨"A", 2, 0, 0⟩ : RoomStat).mean = 0 →
      (⟨"A", 2, 0, 0⟩ : RoomStat).cv.isFinite = false) ∧
    (2 ≤ (⟨"A", 2, 0, 0⟩ : RoomStat).n →
      ((⟨"A", 2, 0, 0⟩ : RoomStat).cv.isFinite = false ↔
        (⟨"A", 2, 0, 0⟩ : RoomStat).mean = 0)) :=
  C4_cv_mean_zero exDf2 ⟨"A", 2, 0, 0⟩ (by with_unfolding_all decide)

/-- C5: a room whose coefficient of variation is non-numeric (NaN, e.g. a
room with all-zero counts and hence mean 0) is never included in the
`rooms_with_high_variance` list of the insights record: the NumPy comparison
`NaN > 1` is False, so the `cv > 1` filter always rejects it. -/
theorem C5_nan_cv_not_high_variance (df : List LongRow) (s : RoomStat)
    (hs : s ∈ room_stats df) (hnan : s.cv.isNaN = true) :
    s.room ∉ (generate_insights (daily_totals df) (room_totals df)
      (room_stats df)).rooms_with_high_variance := by
  intro hmem
  have hmem' : s.room ∈
      ((room_stats df).filter (fun s' => s'.cv.gtOne)).map (·.room) := hmem
  rcases List.mem_map.1 hmem' with ⟨s', hs', hroom⟩
  have hs'' : s' ∈ room_stats df := List.mem_of_mem_filter hs'
  have hgt : s'.cv.gtOne = true := by
    have h := List.of_mem_filter hs'
    simpa using h
  have hmapid : (room_stats df).map (·.room) = roomKeys df := by
    rw [room_stats, List.map_map]
    exact List.map_id'' (fun _ => rfl) _
  have hrn : ((room_stats df).map (·.room)).Nodup := by
    rw [hmapid]; exact roomKeys_nodup df
  have heq : s' = s := List.inj_on_of_nodup_map hrn hs'' hs hroom
  rw [heq] at hgt
  have hc : s.cv = CV.nan := by
    cases hcv : s.cv <;> simp [hcv, CV.isNaN] at hnan ⊢
  rw [hc] at hgt
  simp [CV.gtOne] at hgt

/-- Witness for C5 at the all-zero room of `exDf2`. -/
theorem C5_witness :
    (⟨"A", 2, 0, 0⟩ : RoomStat).room ∉
      (generate_insights (daily_totals exDf2) (room_totals exDf2)
        (room_stats exDf2)).rooms_with_high_variance :=
  C5_nan_cv_not_high_variance exDf2 ⟨"A", 2, 0, 0⟩
    (by with_unfolding_all decide) (by decide)

/-- C6: the room-totals view is sorted descending by total alarms: for every
index i, `room_totals[i+1].total_alarms ≤ room_totals[i].total_alarms`. -/
theorem C6_room_totals_sorted_desc (df : List LongRow) (i : Nat)
    (h : i + 1 < (room_totals df).length) :
    ((room_totals df).get ⟨i + 1, h⟩).total_alarms ≤
      ((room_totals df).get ⟨i, Nat.lt_of_succ_lt h⟩).total_alarms := by
  have hs : (room_totals df).Sorted rtDesc := List.sorted_insertionSort rtDesc _
  exact List.pairwise_iff_get.1 hs ⟨i, Nat.lt_of_succ_lt h⟩ ⟨i + 1, h⟩
    (Nat.lt_succ_self i)

/-- Witness for C6 at the concrete 2-room table (B's total 7 ≥ A's 3). -/
theorem C6_witness :
    ((room_totals exDf1).get ⟨1, by with_unfolding_all decide⟩).total_alarms ≤
      ((room_totals exDf1).get ⟨0, by with_unfolding_all decide⟩).total_alarms :=
  C6_room_totals_sorted_desc exDf1 0 (by with_unfolding_all decide)

/-- C7: the daily-totals view has one row per distinct date in strictly
ascending date order (so dates are unique and sorted), each row carries the
sum of `Alarms` across all rooms for that date, and the dates appearing in
it are exactly the dates of the long table. -/
theorem C7_daily_totals_correct (df : List LongRow) :
    (daily_totals df).Pairwise (fun a b => a.1 < b.1) ∧
    (∀ p ∈ daily_totals df,
      p.2 = sumAlarms (df.filter (fun r => r.date = p.1))) ∧
    (∀ d : Nat, d ∈ df.map (·.date) ↔ d ∈ (daily_totals df).map (·.1)) := by
  refine ⟨?_, ?_, ?_⟩
  · rw [daily_totals, List.pairwise_map]
    have hs : (dateKeys df).Sorted (· ≤ ·) := List.sorted_insertionSort _ _
    exact hs.lt_of_le (dateKeys_nodup df)
  · intro p hp
    rcases List.mem_map.1 hp with ⟨d, _, rfl⟩
    rfl
  · intro d
    have hmap : (daily_totals df).map (·.1) = dateKeys df := by
      rw [daily_totals, List.map_map]
      exact List.map_id'' (fun _ => rfl) _
    rw [hmap, mem_dateKeys]

/-- A 21-room, 1-day wide table: room "A" has zero alarms (making it the
lowest-total, 21st-ranked room), rooms "B01".."B20" have one alarm each. -/
def exW8 : WideTable :=
  ⟨["01"],
   [⟨"A", "A", [0]⟩,
    ⟨"B01", "B01", [1]⟩, ⟨"B02", "B02", [1]⟩, ⟨"B03", "B03", [1]⟩,
    ⟨"B04", "B04", [1]⟩, ⟨"B05", "B05", [1]⟩, ⟨"B06", "B06", [1]⟩,
    ⟨"B07", "B07", [1]⟩, ⟨"B08", "B08", [1]⟩, ⟨"B09", "B09", [1]⟩,
    ⟨"B10", "B10", [1]⟩, ⟨"B11", "B11", [1]⟩, ⟨"B12", "B12", [1]⟩,
    ⟨"B13", "B13", [1]⟩, ⟨"B14", "B14", [1]⟩, ⟨"B15", "B15", [1]⟩,
    ⟨"B16", "B16", [1]⟩, ⟨"B17", "B17", [1]⟩, ⟨"B18", "B18", [1]⟩,
    ⟨"B19", "B19", [1]⟩, ⟨"B20", "B20", [1]⟩]⟩

/-- The long table of `exW8`. -/
def exDf8 : List LongRow :=
  [⟨"A", "A", 1, 0⟩,
   ⟨"B01", "B01", 1, 1⟩, ⟨"B02", "B02", 1, 1⟩, ⟨"B03", "B03", 1, 1⟩,
   ⟨"B04", "B04", 1, 1⟩, ⟨"B05", "B05", 1, 1⟩, ⟨"B06", "B06", 1, 1⟩,
   ⟨"B07", "B07", 1, 1⟩, ⟨"B08", "B08", 1, 1⟩, ⟨"B09", "B09", 1, 1⟩,
   ⟨"B10", "B10", 1, 1⟩, ⟨"B11", "B11", 1, 1⟩, ⟨"B12", "B12", 1, 1⟩,
   ⟨"B13", "B13", 1, 1⟩, ⟨"B14", "B14", 1, 1⟩, ⟨"B15", "B15", 1, 1⟩,
   ⟨"B16", "B16", 1, 1⟩, ⟨"B17", "B17", 1, 1⟩, ⟨"B18", "B18", 1, 1⟩,
   ⟨"B19", "B19", 1, 1⟩, ⟨"B20", "B20", 1, 1⟩]

/-- C8: the heat-map panel does NOT show the twenty highest-total rooms.
`df.pivot(index='Room_Codes', ...)` sorts its row index alphabetically and
`.head(20)` then keeps the first twenty rooms in that alphabetical order, not
the top twenty of the room-totals ranking (despite the panel's own title
"Top 20 Rooms"): on the 21-room input `exW8`, zero-alarm room "A" (the
lowest-ranked room) is shown while top-ranked "B20" is not. -/
theorem C8_heatmap_not_top20 :
    load_and_process_data exW8 = .ok exDf8 ∧
    20 < (room_totals exDf8).length ∧
    "A" ∈ heatmap_rooms exDf8 ∧
    "A" ∉ top20_rooms exDf8 ∧
    "B20" ∈ top20_rooms exDf8 ∧
    "B20" ∉ heatmap_rooms exDf8 ∧
    heatmap_rooms exDf8 ≠ top20_rooms exDf8 := by
  with_unfolding_all decide

/-- C10: for every input with a non-empty daily-totals view, the insights
record satisfies `avg_daily_alarms` = `total_alarms` / (number of distinct
dates in the long table): the mean of the per-day totals times the day count
is the overall total. -/
theorem C10_avg_daily_relation (df : List LongRow)
    (_hne : daily_totals df ≠ []) :
    (generate_insights (daily_totals df) (room_totals df)
      (room_stats df)).avg_daily_alarms
      = (generate_insights (daily_totals df) (room_totals df)
          (room_stats df)).total_alarms
        / (((df.map (·.date)).dedup.length : ℚ)) := by
  have h1 : (generate_insights (daily_totals df) (room_totals df)
      (room_stats df)).total_alarms = sumAlarms df := sum_room_totals df
  have h2 : ((daily_totals df).map (·.2)).sum = sumAlarms df :=
    sum_daily_totals df
  have h3 : ((daily_totals df).length : ℚ)
      = (((df.map (·.date)).dedup.length : ℕ) : ℚ) := by
    rw [daily_totals, List.length_map, dateKeys, List.length_insertionSort]
  show ((daily_totals df).map (·.2)).sum / ((daily_totals df).length : ℚ) = _
  rw [h1, h2, h3]

/-- Witness for C10 at the concrete 2-room × 2-day table (5 = 10 / 2). -/
theorem C10_witness :
    (generate_insights (daily_totals exDf1) (room_totals exDf1)
      (room_stats exDf1)).avg_daily_alarms
      = (generate_insights (daily_totals exDf1) (room_totals exDf1)
          (room_stats exDf1)).total_alarms
        / (((exDf1.map (·.date)).dedup.length : ℚ)) :=
  C10_avg_daily_relation exDf1 (by with_unfolding_all decide)

end AlarmAnalysis
